import Mathlib

/-!
Verification of the dataset/loss/model-selection dispatch layer of GNAS-HP
(`src/data/__init__.py`): the four dispatch functions `get_trans_input`,
`get_loss_fn`, `load_data`, `load_metric`, and the three module classes
`FeatureConcatEncoder`, `TransInput`, `TransOutput`.

Modelling conventions: tensors are `List (List Rat)` (rows x features);
fallible Python code (raise) is `Except String`; the returned torch modules
are modelled by their observable construction data (kind and dimensions,
plus explicit weight lists where forward computation matters).
-/

namespace GNASHP

/-- A two-dimensional tensor: a list of rows of rationals. -/
abbrev Tensor2 : Type := List (List Rat)

/-- The configuration object `args` consumed by this file: dataset name,
task type, and the dimension counts the modules read. `extra` is the flag
forwarded to the QM9 dataset constructor. -/
structure Args where
  data : String
  task : String
  K : Nat
  in_dim_V : Nat
  node_dim : Nat
  nb_classes : Nat
  nb_mlp_layer : Nat
  extra : Bool
deriving Repr, DecidableEq

/-- The module returned by `get_trans_input`: either `nn.Embedding(num, dim)`
or `nn.Linear(inf, outf)`, identified by kind and constructor arguments. -/
inductive TransInputModule where
  | Embedding (num_embeddings embedding_dim : Nat)
  | Linear (in_features out_features : Nat)
deriving Repr, DecidableEq

/-- The loss object returned by `get_loss_fn`, identified by which external
criterion class is instantiated and with which arguments. -/
inductive LossFn where
  | MoleculesCriterion
  | TSPCriterion
  | SBMsCriterion (nb_classes : Nat)
  | SuperPixCriterion
  | CiteCriterion
  | TUsCriterion
deriving Repr, DecidableEq

/-- The dataset object returned by `load_data`, identified by which external
dataset class is instantiated and with which arguments. -/
inductive Dataset where
  | MoleculeDataset (name : String)
  | QM9Dataset (name : String) (extra : Bool)
  | TSPDataset (name : String)
  | SuperPixDataset (name : String)
  | SBMsDataset (name : String)
  | CoraDataset (name : String)
  | TUsDataset (name : String)
deriving Repr, DecidableEq

/-- The metric function returned by `load_metric`, identified by name. -/
inductive Metric where
  | MAE
  | binary_f1_score
  | accuracy_MNIST_CIFAR
  | accuracy_SBM
  | CoraAccuracy
  | accuracy_TU
deriving Repr, DecidableEq

/-- `get_trans_input(args)`: the if/elif chain on `args.data`, in source
order; unrecognized names raise `Unknown dataset!`. -/
def get_trans_input (args : Args) : Except String TransInputModule :=
  if args.data ∈ ["ZINC"] then
    .ok (.Embedding args.in_dim_V args.node_dim)
  else if args.data ∈ ["TSP"] then
    .ok (.Linear args.in_dim_V args.node_dim)
  else if args.data ∈ ["SBM_CLUSTER", "SBM_PATTERN"] then
    .ok (.Embedding args.in_dim_V args.node_dim)
  else if args.data ∈ ["CIFAR10", "MNIST", "Cora"] then
    .ok (.Linear args.in_dim_V args.node_dim)
  else if args.data ∈ ["QM9"] then
    .ok (.Linear args.in_dim_V args.node_dim)
  else if args.data ∈ ["ENZYMES", "DD", "PROTEINS_full"] then
    .ok (.Linear args.in_dim_V args.node_dim)
  else
    .error "Unknown dataset!"

/-- `get_loss_fn(args)`: the if/elif chain on `args.data`, in source order. -/
def get_loss_fn (args : Args) : Except String LossFn :=
  if args.data ∈ ["ZINC", "QM9"] then
    .ok .MoleculesCriterion
  else if args.data ∈ ["TSP"] then
    .ok .TSPCriterion
  else if args.data ∈ ["SBM_CLUSTER", "SBM_PATTERN"] then
    .ok (.SBMsCriterion args.nb_classes)
  else if args.data ∈ ["CIFAR10", "MNIST"] then
    .ok .SuperPixCriterion
  else if args.data ∈ ["Cora"] then
    .ok .CiteCriterion
  else if args.data ∈ ["ENZYMES", "DD", "PROTEINS_full"] then
    .ok .TUsCriterion
  else
    .error "Unknown dataset!"

/-- `load_data(args)`: the if/elif chain on `args.data`, in source order. -/
def load_data (args : Args) : Except String Dataset :=
  if args.data ∈ ["ZINC"] then
    .ok (.MoleculeDataset args.data)
  else if args.data ∈ ["QM9"] then
    .ok (.QM9Dataset args.data args.extra)
  else if args.data ∈ ["TSP"] then
    .ok (.TSPDataset args.data)
  else if args.data ∈ ["MNIST", "CIFAR10"] then
    .ok (.SuperPixDataset args.data)
  else if args.data ∈ ["SBM_CLUSTER", "SBM_PATTERN"] then
    .ok (.SBMsDataset args.data)
  else if args.data ∈ ["Cora"] then
    .ok (.CoraDataset args.data)
  else if args.data ∈ ["ENZYMES", "DD", "PROTEINS_full"] then
    .ok (.TUsDataset args.data)
  else
    .error "Unknown dataset!"

/-- `load_metric(args)`: the if/elif chain on `args.data`, in source order. -/
def load_metric (args : Args) : Except String Metric :=
  if args.data ∈ ["ZINC", "QM9"] then
    .ok .MAE
  else if args.data ∈ ["TSP"] then
    .ok .binary_f1_score
  else if args.data ∈ ["MNIST", "CIFAR10"] then
    .ok .accuracy_MNIST_CIFAR
  else if args.data ∈ ["SBM_CLUSTER", "SBM_PATTERN"] then
    .ok .accuracy_SBM
  else if args.data ∈ ["Cora"] then
    .ok .CoraAccuracy
  else if args.data ∈ ["ENZYMES", "DD", "PROTEINS_full"] then
    .ok .accuracy_TU
  else
    .error "Unknown dataset!"

/-- The full set of dataset names recognized by the dispatch layer. -/
def recognizedDatasets : List String :=
  ["ZINC", "QM9", "TSP", "SBM_CLUSTER", "SBM_PATTERN",
   "CIFAR10", "MNIST", "Cora", "ENZYMES", "DD", "PROTEINS_full"]

/-- A sample configuration for the ZINC dataset. -/
def argsZINC : Args :=
  { data := "ZINC", task := "graph_level", K := 2, in_dim_V := 28,
    node_dim := 3, nb_classes := 1, nb_mlp_layer := 2, extra := false }

/-- A sample configuration with a dataset name outside the recognized set. -/
def argsBogus : Args :=
  { data := "IMDB", task := "graph_level", K := 2, in_dim_V := 28,
    node_dim := 3, nb_classes := 1, nb_mlp_layer := 2, extra := false }

/-- `nn.Linear(in_features, out_features)`, modelled by its dimensions and
explicit weight matrix (`out_features` rows of `in_features` entries) and
bias vector. -/
structure Linear where
  in_features : Nat
  out_features : Nat
  weight : Tensor2
  bias : List Rat
deriving Repr, DecidableEq

/-- Dot product of two equally long vectors. -/
def dot (xs ys : List Rat) : Rat := (List.zipWith (· * ·) xs ys).sum

/-- `nn.Linear` applied to one row: each output entry is the dot product of
a weight row with the input plus the matching bias entry. -/
def Linear.apply (l : Linear) (x : List Rat) : List Rat :=
  (l.weight.zip l.bias).map (fun wb => dot wb.1 x + wb.2)

/-- Well-formedness of a `Linear` module: the weight matrix and the bias
have the shapes announced by `in_features`/`out_features`. -/
def Linear.wf (l : Linear) : Prop :=
  l.weight.length = l.out_features ∧
  (∀ r ∈ l.weight, r.length = l.in_features) ∧
  l.bias.length = l.out_features

instance (l : Linear) : Decidable l.wf := by
  unfold Linear.wf; infer_instance

/-- The ReLU nonlinearity on one scalar. -/
def relu (x : Rat) : Rat := max x 0

/-- Modelled from the spec: the `MLP` class is imported from
`models.networks`, which is not part of this file; the spec's glossary
describes it as a stack of linear layers (with an externally defined
nonlinearity) mapping one feature width to another, built from a channel
sequence. It is modelled as the recorded channel sequence plus a list of
linear layers; the nonlinearity is modelled as ReLU after each layer. -/
structure MLP where
  channel_sequence : List Nat
  layers : List Linear
deriving Repr, DecidableEq

/-- Run a stack of linear layers (each followed by the nonlinearity) over
one row. -/
def mlpRun (ls : List Linear) (x : List Rat) : List Rat :=
  ls.foldl (fun v l => (l.apply v).map relu) x

/-- An `MLP` applied to one row. -/
def MLP.applyRow (m : MLP) (x : List Rat) : List Rat := mlpRun m.layers x

/-- An `MLP` applied row-wise to a tensor. -/
def MLP.apply (m : MLP) (t : Tensor2) : Tensor2 := t.map m.applyRow

/-- `chainOk cs ls` holds when the layers `ls` realize the channel sequence
`cs`: consecutive channels give each layer's input and output width, and
every layer is well-formed. -/
def chainOk : List Nat → List Linear → Bool
  | [_], [] => true
  | c1 :: c2 :: cs, l :: ls =>
      decide (l.in_features = c1) && decide (l.out_features = c2) &&
      decide l.wf && chainOk (c2 :: cs) ls
  | _, _ => false

/-- `MLPBuilt cs m`: `m` is an `MLP` the external constructor could have
produced from channel sequence `cs` (its weights are arbitrary but have the
shapes dictated by `cs`). -/
def MLPBuilt (cs : List Nat) (m : MLP) : Prop :=
  m.channel_sequence = cs ∧ chainOk cs m.layers = true

/-- A zero-initialized `Linear`, used to exhibit concrete modules. -/
def Linear.zeros (i o : Nat) : Linear :=
  ⟨i, o, List.replicate o (List.replicate i 0), List.replicate o 0⟩

/-- Zero-initialized layers realizing a channel sequence. -/
def mkLayers : List Nat → List Linear
  | c1 :: c2 :: cs => Linear.zeros c1 c2 :: mkLayers (c2 :: cs)
  | _ => []

/-- A zero-initialized `MLP` on a channel sequence, one concrete
instantiation of the external constructor. -/
def MLP.mk0 (cs : List Nat) : MLP := ⟨cs, mkLayers cs⟩

/-- A (possibly batched) DGL graph, modelled by the node counts of the
graphs in the batch, the edge list (source, destination), and the two
per-node / per-edge data fields this file touches (`ndata['V']`,
`edata['e']`). -/
structure DGLGraph where
  batch_num_nodes : List Nat
  edges : List (Nat × Nat)
  ndataV : Option Tensor2
  edataE : Option Tensor2
deriving Repr, DecidableEq

/-- The `input` mapping flowing through the transform pipeline, with its
keys `G` and `V`. -/
structure InputDict where
  G : DGLGraph
  V : Tensor2
deriving Repr, DecidableEq

/-- Pointwise sum of two rows. -/
def addVec (xs ys : List Rat) : List Rat := List.zipWith (· + ·) xs ys

/-- Column-wise sum of a tensor's rows. -/
def colSum : Tensor2 → List Rat
  | [] => []
  | r :: rs => rs.foldl addVec r

/-- Column-wise mean of a tensor's rows. -/
def meanRows (t : Tensor2) : List Rat :=
  (colSum t).map (fun x => x / (t.length : Rat))

/-- Split a batched node tensor into the per-graph blocks given by the
batch's node counts. -/
def splitBatches : List Nat → Tensor2 → List Tensor2
  | [], _ => []
  | n :: ns, rows => rows.take n :: splitBatches ns (rows.drop n)

/-- `dgl.mean_nodes(G, 'V')`: per-graph mean of the stored node field. -/
def mean_nodes (G : DGLGraph) : Tensor2 :=
  (splitBatches G.batch_num_nodes (G.ndataV.getD [])).map meanRows

/-- The `_edge_feat` update of `TransOutput.forward`: an edge's feature is
the source node's row concatenated with the destination node's row. -/
def edgeFeat (V : Tensor2) (e : Nat × Nat) : List Rat :=
  V.getD e.1 [] ++ V.getD e.2 []

/-- `TransInput`: stores `args` and the optional transform (`None` maps to
`none`; Python truthiness of a module maps to `some`). -/
structure TransInput where
  args : Args
  trans : Option (Tensor2 → Tensor2)

/-- `TransInput.forward`: replace `input['V']` by the transformed features
when a transform is configured, else pass `input` through. -/
def TransInput.forward (t : TransInput) (input : InputDict) : InputDict :=
  match t.trans with
  | some f => { input with V := f input.V }
  | none => input

/-- `TransOutput`: stores `args` and the task head MLP. -/
structure TransOutput where
  args : Args
  trans : MLP
deriving Repr, DecidableEq

/-- `TransOutput.__init__`, parameterized by the external `MLP` constructor
`mk`: picks the channel sequence by task (Python `(d,) * n + (c,)` is
`List.replicate n d ++ [c]`), and raises `Unknown task!` otherwise. -/
def TransOutput.init (mk : List Nat → MLP) (args : Args) :
    Except String TransOutput :=
  if args.task = "node_level" then
    .ok ⟨args, mk (List.replicate args.nb_mlp_layer args.node_dim ++ [args.nb_classes])⟩
  else if args.task = "link_level" then
    .ok ⟨args, mk (List.replicate args.nb_mlp_layer (args.node_dim * 2) ++ [args.nb_classes])⟩
  else if args.task = "graph_level" then
    .ok ⟨args, mk (List.replicate args.nb_mlp_layer args.node_dim ++ [args.nb_classes])⟩
  else
    .error "Unknown task!"

/-- `TransOutput.forward`: by task, apply the head to the node features, to
the edge features built by `apply_edges(_edge_feat)` after stashing `V`
into `ndata`, or to the `mean_nodes` readout after stashing `V`; the
result pairs the (possibly mutated) graph with the output tensor. -/
def TransOutput.forward (t : TransOutput) (input : InputDict) :
    Except String (DGLGraph × Tensor2) :=
  let G := input.G
  let V := input.V
  if t.args.task = "node_level" then
    .ok (G, t.trans.apply V)
  else if t.args.task = "link_level" then
    let G1 : DGLGraph := { G with ndataV := some V }
    let e : Tensor2 := G1.edges.map (edgeFeat (G1.ndataV.getD []))
    let G2 : DGLGraph := { G1 with edataE := some e }
    .ok (G2, t.trans.apply (G2.edataE.getD []))
  else if t.args.task = "graph_level" then
    let G1 : DGLGraph := { G with ndataV := some V }
    .ok (G1, t.trans.apply (mean_nodes G1))
  else
    .error "Unknown task!"

/-- Embed one row of categorical indices through the per-feature tables in
lockstep (`embedding_list[i](x[..., i])` for `i` in range of the row
width); a missing table or an out-of-range index is the lookup error. -/
def embedRow : List Tensor2 → List Nat → Option Tensor2
  | _, [] => some []
  | [], _ :: _ => none
  | tbl :: tables, j :: row => do
      let e ← tbl[j]?
      let es ← embedRow tables row
      some (e :: es)

/-- `FeatureConcatEncoder`: one embedding table per categorical feature
plus the final projection. -/
structure FeatureConcatEncoder where
  embedding_list : List Tensor2
  proj : Linear
deriving Repr, DecidableEq

/-- `FeatureConcatEncoder.forward` on one row: look up each feature's
embedding, concatenate along the last axis, project. -/
def FeatureConcatEncoder.applyRow (enc : FeatureConcatEncoder)
    (row : List Nat) : Option (List Rat) := do
  let embs ← embedRow enc.embedding_list row
  some (enc.proj.apply embs.flatten)

/-- `FeatureConcatEncoder.forward`, row-wise over the batch. -/
def FeatureConcatEncoder.forward (enc : FeatureConcatEncoder) :
    List (List Nat) → Option Tensor2
  | [] => some []
  | row :: rest => do
      let v ← enc.applyRow row
      let rest' ← enc.forward rest
      some (v :: rest')

/-- Well-formedness of one embedding table built as
`nn.Embedding(dim, H)` (with `padding_idx=0` when `padding` is set, whose
row 0 is initialized to zeros). -/
def embTableWf (dim H : Nat) (padding : Bool) (tbl : Tensor2) : Prop :=
  tbl.length = dim ∧ (∀ r ∈ tbl, r.length = H) ∧
  (padding = true → tbl.headD [] = List.replicate H 0)

instance (dim H : Nat) (padding : Bool) (tbl : Tensor2) :
    Decidable (embTableWf dim H padding tbl) := by
  unfold embTableWf; infer_instance

/-- `enc` is a `FeatureConcatEncoder` the constructor could have produced
from `(feature_dims, hidden_size, padding)`: one table per feature dim of
the right shape, plus the projection
`nn.Linear(len(feature_dims) * hidden_size, hidden_size)`. -/
def FeatureConcatEncoder.builtFrom (feature_dims : List Nat) (H : Nat)
    (padding : Bool) (enc : FeatureConcatEncoder) : Prop :=
  enc.embedding_list.length = feature_dims.length ∧
  (∀ i, i < feature_dims.length →
    embTableWf (feature_dims.getD i 0) H padding (enc.embedding_list.getD i [])) ∧
  enc.proj.in_features = feature_dims.length * H ∧
  enc.proj.out_features = H ∧
  enc.proj.wf

instance (feature_dims : List Nat) (H : Nat) (padding : Bool)
    (enc : FeatureConcatEncoder) :
    Decidable (enc.builtFrom feature_dims H padding) := by
  unfold FeatureConcatEncoder.builtFrom; infer_instance

/-- A ZINC configuration with an unrecognized task string. -/
def argsBadTask : Args := { argsZINC with task := "edge_level" }

/-- A ZINC configuration differing from `argsZINC` only in fields the
dispatch functions never read. -/
def argsZINC2 : Args := { argsZINC with task := "node_level", K := 5 }

/-- A sample batched graph: one graph with two nodes and one edge. -/
def Gex : DGLGraph :=
  { batch_num_nodes := [2], edges := [(0, 1)], ndataV := none, edataE := none }

/-- A second sample graph: the same nodes and edge read as a batch of two
one-node graphs. -/
def Gex2 : DGLGraph := { Gex with batch_num_nodes := [1, 1] }

/-- Sample node features: two nodes of width 3. -/
def Vex : Tensor2 := [[1, 2, 3], [4, 5, 6]]

/-- A sample pipeline input. -/
def inputEx : InputDict := ⟨Gex, Vex⟩

/-- A link-level head over the sample configuration. -/
def tLink : TransOutput :=
  ⟨{ argsZINC with task := "link_level" }, MLP.mk0 [6, 1]⟩

/-- A graph-level head over the sample configuration. -/
def tGraph : TransOutput :=
  ⟨{ argsZINC with task := "graph_level" }, MLP.mk0 [3, 1]⟩

/-- A node-level head over the sample configuration. -/
def tNode : TransOutput :=
  ⟨{ argsZINC with task := "node_level" }, MLP.mk0 [3, 1]⟩

/-- A sample concrete transform: duplicate the rows. -/
def fDup : Tensor2 → Tensor2 := fun v => v ++ v

/-- C1: on every recognized dataset name each of the four dispatch functions
returns a non-null object; on every name outside the recognized set each
raises the `Unknown dataset!` error. -/
theorem dispatch_total_on_recognized_else_unknown (args : Args) :
    (args.data ∈ recognizedDatasets →
      (∃ v, get_trans_input args = .ok v) ∧ (∃ v, get_loss_fn args = .ok v) ∧
      (∃ v, load_data args = .ok v) ∧ (∃ v, load_metric args = .ok v)) ∧
    (args.data ∉ recognizedDatasets →
      get_trans_input args = .error "Unknown dataset!" ∧
      get_loss_fn args = .error "Unknown dataset!" ∧
      load_data args = .error "Unknown dataset!" ∧
      load_metric args = .error "Unknown dataset!") := by
  constructor
  · intro h
    simp only [recognizedDatasets, List.mem_cons, List.not_mem_nil, or_false] at h
    rcases h with h | h | h | h | h | h | h | h | h | h | h <;>
      simp [get_trans_input, get_loss_fn, load_data, load_metric, h]
  · intro h
    simp only [recognizedDatasets, List.mem_cons, List.not_mem_nil, or_false,
      not_or] at h
    obtain ⟨h1, h2, h3, h4, h5, h6, h7, h8, h9, h10, h11⟩ := h
    simp [get_trans_input, get_loss_fn, load_data, load_metric,
      h1, h2, h3, h4, h5, h6, h7, h8, h9, h10, h11]

/-- Witness for C1 at the recognized name ZINC and the unrecognized name
IMDB. -/
theorem dispatch_total_on_recognized_else_unknown_witness :
    (argsZINC.data ∈ recognizedDatasets ∧
      (∃ v, get_trans_input argsZINC = .ok v) ∧
      (∃ v, get_loss_fn argsZINC = .ok v) ∧
      (∃ v, load_data argsZINC = .ok v) ∧
      (∃ v, load_metric argsZINC = .ok v)) ∧
    (argsBogus.data ∉ recognizedDatasets ∧
      get_trans_input argsBogus = .error "Unknown dataset!" ∧
      get_loss_fn argsBogus = .error "Unknown dataset!" ∧
      load_data argsBogus = .error "Unknown dataset!" ∧
      load_metric argsBogus = .error "Unknown dataset!") :=
  ⟨⟨by decide, (dispatch_total_on_recognized_else_unknown argsZINC).1 (by decide)⟩,
   ⟨by decide, (dispatch_total_on_recognized_else_unknown argsBogus).2 (by decide)⟩⟩

/-- C2: `get_trans_input` yields the embedding module with vocabulary
`in_dim_V` and width `node_dim` exactly on ZINC, SBM_CLUSTER, SBM_PATTERN
and the linear projection `in_dim_V -> node_dim` exactly on the remaining
eight recognized names. -/
theorem trans_input_embedding_vs_linear_table (args : Args) :
    (get_trans_input args = .ok (.Embedding args.in_dim_V args.node_dim) ↔
      args.data ∈ ["ZINC", "SBM_CLUSTER", "SBM_PATTERN"]) ∧
    (get_trans_input args = .ok (.Linear args.in_dim_V args.node_dim) ↔
      args.data ∈ ["QM9", "TSP", "CIFAR10", "MNIST", "Cora",
                   "ENZYMES", "DD", "PROTEINS_full"]) := by
  rcases Decidable.em (args.data ∈ recognizedDatasets) with h | h
  · simp only [recognizedDatasets, List.mem_cons, List.not_mem_nil, or_false] at h
    rcases h with h | h | h | h | h | h | h | h | h | h | h <;>
      simp [get_trans_input, h]
  · simp only [recognizedDatasets, List.mem_cons, List.not_mem_nil, or_false,
      not_or] at h
    obtain ⟨h1, h2, h3, h4, h5, h6, h7, h8, h9, h10, h11⟩ := h
    simp [get_trans_input, h1, h2, h3, h4, h5, h6, h7, h8, h9, h10, h11]

/-- Witness for C2: evaluation at ZINC picks the embedding module. -/
theorem trans_input_embedding_vs_linear_table_witness :
    get_trans_input argsZINC = .ok (.Embedding argsZINC.in_dim_V argsZINC.node_dim) :=
  (trans_input_embedding_vs_linear_table argsZINC).1.mpr (by decide)

/-- C3: `get_loss_fn` and `load_metric` follow the same six dataset
families, returning the family's loss object and metric. -/
theorem loss_and_metric_family_table (args : Args) :
    (args.data ∈ ["ZINC", "QM9"] →
      get_loss_fn args = .ok .MoleculesCriterion ∧
      load_metric args = .ok .MAE) ∧
    (args.data ∈ ["TSP"] →
      get_loss_fn args = .ok .TSPCriterion ∧
      load_metric args = .ok .binary_f1_score) ∧
    (args.data ∈ ["SBM_CLUSTER", "SBM_PATTERN"] →
      get_loss_fn args = .ok (.SBMsCriterion args.nb_classes) ∧
      load_metric args = .ok .accuracy_SBM) ∧
    (args.data ∈ ["CIFAR10", "MNIST"] →
      get_loss_fn args = .ok .SuperPixCriterion ∧
      load_metric args = .ok .accuracy_MNIST_CIFAR) ∧
    (args.data ∈ ["Cora"] →
      get_loss_fn args = .ok .CiteCriterion ∧
      load_metric args = .ok .CoraAccuracy) ∧
    (args.data ∈ ["ENZYMES", "DD", "PROTEINS_full"] →
      get_loss_fn args = .ok .TUsCriterion ∧
      load_metric args = .ok .accuracy_TU) := by
  refine ⟨fun h => ?_, fun h => ?_, fun h => ?_, fun h => ?_, fun h => ?_,
    fun h => ?_⟩ <;>
    simp only [List.mem_cons, List.not_mem_nil, or_false] at h
  · rcases h with h | h <;> simp [get_loss_fn, load_metric, h]
  · simp [get_loss_fn, load_metric, h]
  · rcases h with h | h <;> simp [get_loss_fn, load_metric, h]
  · rcases h with h | h <;> simp [get_loss_fn, load_metric, h]
  · simp [get_loss_fn, load_metric, h]
  · rcases h with h | h | h <;> simp [get_loss_fn, load_metric, h]

/-- Witness for C3 at the SBM_CLUSTER family, where the loss carries
`nb_classes`. -/
theorem loss_and_metric_family_table_witness :
    let a : Args :=
      { data := "SBM_CLUSTER", task := "node_level", K := 2, in_dim_V := 7,
        node_dim := 3, nb_classes := 6, nb_mlp_layer := 1, extra := false }
    a.data ∈ ["SBM_CLUSTER", "SBM_PATTERN"] ∧
      get_loss_fn a = .ok (.SBMsCriterion a.nb_classes) ∧
      load_metric a = .ok .accuracy_SBM :=
  ⟨by decide,
   (loss_and_metric_family_table
     { data := "SBM_CLUSTER", task := "node_level", K := 2, in_dim_V := 7,
       node_dim := 3, nb_classes := 6, nb_mlp_layer := 1,
       extra := false }).2.2.1 (by decide)⟩

/-- C4: any task value other than the three recognized ones makes
`TransOutput.__init__` raise `Unknown task!`, and a bypassed construction
still raises `Unknown task!` in `forward`. -/
theorem trans_output_unknown_task_error (mk : List Nat → MLP) (args : Args)
    (h : args.task ∉ ["node_level", "link_level", "graph_level"]) :
    TransOutput.init mk args = .error "Unknown task!" ∧
    ∀ (m : MLP) (input : InputDict),
      TransOutput.forward ⟨args, m⟩ input = .error "Unknown task!" := by
  simp only [List.mem_cons, List.not_mem_nil, or_false, not_or] at h
  obtain ⟨h1, h2, h3⟩ := h
  exact ⟨by simp [TransOutput.init, h1, h2, h3],
    fun m input => by simp [TransOutput.forward, h1, h2, h3]⟩

/-- Witness for C4 at the task string `edge_level`. -/
theorem trans_output_unknown_task_error_witness :
    argsBadTask.task ∉ ["node_level", "link_level", "graph_level"] ∧
    TransOutput.init MLP.mk0 argsBadTask = .error "Unknown task!" ∧
    TransOutput.forward ⟨argsBadTask, MLP.mk0 [1]⟩ inputEx =
      .error "Unknown task!" :=
  ⟨by decide,
   (trans_output_unknown_task_error MLP.mk0 argsBadTask (by decide)).1,
   (trans_output_unknown_task_error MLP.mk0 argsBadTask (by decide)).2 _ _⟩

/-- C6: for `link_level`, `forward` attaches to every edge the source row
concatenated with the destination row and returns the MLP of these edge
features; for `graph_level`, it stashes `V` in the graph's node storage,
takes the per-graph mean of `V`, and returns the MLP of that readout. -/
theorem trans_output_link_graph_semantics (t : TransOutput)
    (input : InputDict) :
    (t.args.task = "link_level" →
      t.forward input =
        .ok ({ input.G with
                 ndataV := some input.V,
                 edataE := some (input.G.edges.map (edgeFeat input.V)) },
             t.trans.apply (input.G.edges.map (edgeFeat input.V)))) ∧
    (t.args.task = "graph_level" →
      t.forward input =
        .ok ({ input.G with ndataV := some input.V },
             t.trans.apply
               ((splitBatches input.G.batch_num_nodes input.V).map meanRows))) := by
  refine ⟨fun h => ?_, fun h => ?_⟩ <;>
    simp [TransOutput.forward, mean_nodes, h]

/-- Witness for C6 on the sample graph, one head per task. -/
theorem trans_output_link_graph_semantics_witness :
    (tLink.args.task = "link_level" ∧
      tLink.forward inputEx =
        .ok ({ inputEx.G with
                 ndataV := some inputEx.V,
                 edataE := some (inputEx.G.edges.map (edgeFeat inputEx.V)) },
             tLink.trans.apply (inputEx.G.edges.map (edgeFeat inputEx.V)))) ∧
    (tGraph.args.task = "graph_level" ∧
      tGraph.forward inputEx =
        .ok ({ inputEx.G with ndataV := some inputEx.V },
             tGraph.trans.apply
               ((splitBatches inputEx.G.batch_num_nodes inputEx.V).map meanRows))) :=
  ⟨⟨rfl, (trans_output_link_graph_semantics tLink inputEx).1 rfl⟩,
   ⟨rfl, (trans_output_link_graph_semantics tGraph inputEx).2 rfl⟩⟩

/-- C7: `TransInput.forward` with no transform returns the mapping with `V`
unchanged; with a transform it replaces `V` by `transform(V)`; in both
cases the `G` entry is untouched. -/
theorem trans_input_mutates_only_V (t : TransInput) (input : InputDict) :
    (t.trans = none → t.forward input = input) ∧
    (∀ f, t.trans = some f →
      t.forward input = { input with V := f input.V }) ∧
    (t.forward input).G = input.G := by
  refine ⟨fun h => ?_, fun f h => ?_, ?_⟩
  · simp [TransInput.forward, h]
  · simp [TransInput.forward, h]
  · cases h : t.trans <;> simp [TransInput.forward, h]

/-- Witness for C7 on the sample input, with and without a transform. -/
theorem trans_input_mutates_only_V_witness :
    TransInput.forward ⟨argsZINC, none⟩ inputEx = inputEx ∧
    TransInput.forward ⟨argsZINC, some fDup⟩ inputEx =
      { inputEx with V := fDup inputEx.V } ∧
    (TransInput.forward ⟨argsZINC, some fDup⟩ inputEx).G = inputEx.G :=
  ⟨(trans_input_mutates_only_V ⟨argsZINC, none⟩ inputEx).1 rfl,
   (trans_input_mutates_only_V ⟨argsZINC, some fDup⟩ inputEx).2.1 fDup rfl,
   (trans_input_mutates_only_V ⟨argsZINC, some fDup⟩ inputEx).2.2⟩

/-- C9: the dispatch functions are pure functions of the configuration
fields they read — equal relevant fields give equal results (so equal
arguments give equal results). -/
theorem dispatch_deterministic (a b : Args) (hdata : a.data = b.data) :
    (a.in_dim_V = b.in_dim_V → a.node_dim = b.node_dim →
      get_trans_input a = get_trans_input b) ∧
    (a.nb_classes = b.nb_classes → get_loss_fn a = get_loss_fn b) ∧
    (a.extra = b.extra → load_data a = load_data b) ∧
    load_metric a = load_metric b := by
  refine ⟨fun h1 h2 => ?_, fun h1 => ?_, fun h1 => ?_, ?_⟩
  · simp only [get_trans_input, hdata, h1, h2]
  · simp only [get_loss_fn, hdata, h1]
  · simp only [load_data, hdata, h1]
  · simp only [load_metric, hdata]

/-- Witness for C9: two ZINC configurations differing in unread fields give
identical dispatch results. -/
theorem dispatch_deterministic_witness :
    argsZINC.data = argsZINC2.data ∧
    get_trans_input argsZINC = get_trans_input argsZINC2 ∧
    get_loss_fn argsZINC = get_loss_fn argsZINC2 ∧
    load_data argsZINC = load_data argsZINC2 ∧
    load_metric argsZINC = load_metric argsZINC2 :=
  ⟨rfl, (dispatch_deterministic argsZINC argsZINC2 rfl).1 rfl rfl,
   (dispatch_deterministic argsZINC argsZINC2 rfl).2.1 rfl,
   (dispatch_deterministic argsZINC argsZINC2 rfl).2.2.1 rfl,
   (dispatch_deterministic argsZINC argsZINC2 rfl).2.2.2⟩

/-- C10: in `node_level` mode `forward` leaves `G` unchanged and its output
reads only `V`; in `link_level` mode it writes the node field `V` and the
edge field `e`; in `graph_level` mode it writes the node field `V`. -/
theorem trans_output_frame_effects (t : TransOutput) (G : DGLGraph)
    (V : Tensor2) :
    (t.args.task = "node_level" →
      t.forward ⟨G, V⟩ = .ok (G, t.trans.apply V) ∧
      ∀ G₂ : DGLGraph, t.forward ⟨G₂, V⟩ = .ok (G₂, t.trans.apply V)) ∧
    (t.args.task = "link_level" →
      ∃ e, t.forward ⟨G, V⟩ =
        .ok ({ G with ndataV := some V, edataE := some e },
             t.trans.apply e)) ∧
    (t.args.task = "graph_level" →
      t.forward ⟨G, V⟩ =
        .ok ({ G with ndataV := some V },
             t.trans.apply (mean_nodes { G with ndataV := some V }))) := by
  refine ⟨fun h => ⟨?_, fun G₂ => ?_⟩,
    fun h => ⟨G.edges.map (edgeFeat V), ?_⟩, fun h => ?_⟩ <;>
    simp [TransOutput.forward, h]

/-- Witness for C10: node-level evaluation on two different graphs leaves
each graph unchanged and yields the same output. -/
theorem trans_output_frame_effects_witness :
    tNode.args.task = "node_level" ∧
    tNode.forward ⟨Gex, Vex⟩ = .ok (Gex, tNode.trans.apply Vex) ∧
    tNode.forward ⟨Gex2, Vex⟩ = .ok (Gex2, tNode.trans.apply Vex) :=
  ⟨rfl, ((trans_output_frame_effects tNode Gex Vex).1 rfl).1,
   ((trans_output_frame_effects tNode Gex Vex).1 rfl).2 Gex2⟩

theorem Linear.apply_length (l : Linear) (h : l.wf) (x : List Rat) :
    (l.apply x).length = l.out_features := by
  obtain ⟨hw, _, hb⟩ := h
  simp [Linear.apply, hw, hb]

theorem mlpRun_cons (l : Linear) (ls : List Linear) (x : List Rat) :
    mlpRun (l :: ls) x = mlpRun ls ((l.apply x).map relu) := rfl

/-- Running a layer stack that realizes the channel sequence `cs ++ [k]` on
a row of the first channel's width yields a row of width `k`. -/
theorem mlpRun_length (ls : List Linear) :
    ∀ (cs : List Nat) (k : Nat) (x : List Rat),
      chainOk (cs ++ [k]) ls = true → x.length = (cs ++ [k]).headD 0 →
      (mlpRun ls x).length = k := by
  induction ls with
  | nil =>
    intro cs k x hc hx
    match cs with
    | [] => simpa [mlpRun] using hx
    | [c] => simp [chainOk] at hc
    | c1 :: c2 :: cs' => simp [chainOk] at hc
  | cons l ls ih =>
    intro cs k x hc hx
    match cs with
    | [] => simp [chainOk] at hc
    | c1 :: cs' =>
      rw [mlpRun_cons]
      match cs' with
      | [] =>
        simp only [List.cons_append, List.nil_append, chainOk,
          Bool.and_eq_true, decide_eq_true_eq] at hc
        obtain ⟨⟨⟨hin, hout⟩, hwf⟩, hrest⟩ := hc
        refine ih [] k _ hrest ?_
        simp [Linear.apply_length l hwf, hout]
      | c2 :: cs'' =>
        simp only [List.cons_append, chainOk, Bool.and_eq_true,
          decide_eq_true_eq] at hc
        obtain ⟨⟨⟨hin, hout⟩, hwf⟩, hrest⟩ := hc
        refine ih (c2 :: cs'') k _ ?_ ?_
        · simpa using hrest
        · simp [Linear.apply_length l hwf, hout]

theorem replicate_append_headD (n d k : Nat) (h : 0 < n) :
    (List.replicate n d ++ [k]).headD 0 = d := by
  cases n with
  | zero => omega
  | succ m => simp [List.replicate_succ]

/-- Shape of an `MLP` realizing channel sequence `cs ++ [k]` applied to a
tensor whose rows all have the first channel's width: same number of rows,
each output row of width `k`. -/
theorem MLP.apply_shape (m : MLP) (cs : List Nat) (k : Nat)
    (hm : chainOk (cs ++ [k]) m.layers = true) (t : Tensor2)
    (ht : ∀ r ∈ t, r.length = (cs ++ [k]).headD 0) :
    (m.apply t).length = t.length ∧
    ∀ r ∈ m.apply t, r.length = k := by
  constructor
  · simp [MLP.apply]
  · intro r hr
    simp only [MLP.apply, List.mem_map] at hr
    obtain ⟨row, hrow, rfl⟩ := hr
    exact mlpRun_length m.layers cs k row hm (ht row hrow)

theorem foldl_addVec_length (rs : Tensor2) :
    ∀ acc : List Rat, (∀ r ∈ rs, r.length = acc.length) →
      (rs.foldl addVec acc).length = acc.length := by
  induction rs with
  | nil => intro acc _; rfl
  | cons r rs ih =>
    intro acc h
    have h1 : (addVec acc r).length = acc.length := by
      simp [addVec, h r (by simp)]
    rw [List.foldl_cons]
    rw [ih (addVec acc r) (fun r' hr' => by
      rw [h1]; exact h r' (List.mem_cons_of_mem _ hr')), h1]

theorem colSum_length (t : Tensor2) (w : Nat) (hne : t ≠ [])
    (h : ∀ r ∈ t, r.length = w) : (colSum t).length = w := by
  match t with
  | [] => exact absurd rfl hne
  | r :: rs =>
    have hr : r.length = w := h r (by simp)
    have : (rs.foldl addVec r).length = r.length :=
      foldl_addVec_length rs r (fun r' hr' => by
        rw [hr, h r' (List.mem_cons_of_mem _ hr')])
    simpa [colSum, hr] using this

theorem meanRows_length (t : Tensor2) (w : Nat) (hne : t ≠ [])
    (h : ∀ r ∈ t, r.length = w) : (meanRows t).length = w := by
  simp [meanRows, colSum_length t w hne h]

theorem splitBatches_length (ns : List Nat) :
    ∀ rows : Tensor2, (splitBatches ns rows).length = ns.length := by
  induction ns with
  | nil => intro rows; rfl
  | cons n ns ih => intro rows; simp [splitBatches, ih]

theorem splitBatches_row_mem (ns : List Nat) :
    ∀ (rows : Tensor2) (b : Tensor2), b ∈ splitBatches ns rows →
      ∀ r ∈ b, r ∈ rows := by
  induction ns with
  | nil => intro rows b hb; simp [splitBatches] at hb
  | cons n ns ih =>
    intro rows b hb r hr
    simp only [splitBatches, List.mem_cons] at hb
    rcases hb with rfl | hb
    · exact List.take_subset n rows hr
    · exact List.drop_subset n rows (ih (rows.drop n) b hb r hr)

theorem splitBatches_nonempty (ns : List Nat) :
    ∀ rows : Tensor2, (∀ n ∈ ns, 0 < n) → ns.sum ≤ rows.length →
      ∀ b ∈ splitBatches ns rows, b ≠ [] := by
  induction ns with
  | nil => intro rows _ _ b hb; simp [splitBatches] at hb
  | cons n ns ih =>
    intro rows hpos hsum b hb
    simp only [splitBatches, List.mem_cons] at hb
    have hn : 0 < n := hpos n (by simp)
    have hlen : n ≤ rows.length := by
      have := hsum; simp only [List.sum_cons] at this; omega
    rcases hb with rfl | hb
    · intro hnil
      rw [List.take_eq_nil_iff] at hnil
      rcases hnil with h0 | h0
      · omega
      · subst h0; simp at hlen; omega
    · refine ih (rows.drop n) (fun m hm => hpos m (List.mem_cons_of_mem _ hm))
        ?_ b hb
      simp only [List.length_drop]
      simp only [List.sum_cons] at hsum
      omega

theorem Linear.zeros_wf (i o : Nat) : (Linear.zeros i o).wf := by
  refine ⟨by simp [Linear.zeros], fun r hr => ?_, by simp [Linear.zeros]⟩
  simp only [Linear.zeros] at hr ⊢
  rw [List.eq_of_mem_replicate hr]
  simp

theorem chainOk_mkLayers (c : Nat) (cs : List Nat) :
    chainOk (c :: cs) (mkLayers (c :: cs)) = true := by
  induction cs generalizing c with
  | nil => simp [mkLayers, chainOk]
  | cons c2 cs ih =>
    simp only [mkLayers, chainOk, Bool.and_eq_true, decide_eq_true_eq]
    exact ⟨⟨⟨rfl, rfl⟩, Linear.zeros_wf c c2⟩, ih c2⟩

theorem MLPBuilt_mk0 (cs : List Nat) (h : cs ≠ []) :
    MLPBuilt cs (MLP.mk0 cs) := by
  match cs with
  | [] => exact absurd rfl h
  | c :: cs' => exact ⟨rfl, chainOk_mkLayers c cs'⟩

theorem getD_mem_of_lt (l : Tensor2) (i : Nat) (h : i < l.length) :
    l.getD i [] ∈ l := by
  rw [List.getD_eq_getElem?_getD, List.getElem?_eq_getElem h]
  exact List.getElem_mem h

/-- C5: `TransOutput.__init__` builds the MLP on channel widths `node_dim`
repeated `nb_mlp_layer` times then `nb_classes` for `node_level` and
`graph_level`, and `node_dim*2` repeated then `nb_classes` for
`link_level`; consequently `forward` outputs have last dimension
`nb_classes` and leading dimension the node count for `node_level`, the
edge count for `link_level`, and the graph count for `graph_level`. -/
theorem trans_output_channels_and_output_shape
    (mk : List Nat → MLP) (hmk : ∀ cs, cs ≠ [] → MLPBuilt cs (mk cs))
    (args : Args) (hlayer : 0 < args.nb_mlp_layer) :
    (args.task = "node_level" →
      TransOutput.init mk args =
        .ok ⟨args, mk (List.replicate args.nb_mlp_layer args.node_dim ++
          [args.nb_classes])⟩) ∧
    (args.task = "link_level" →
      TransOutput.init mk args =
        .ok ⟨args, mk (List.replicate args.nb_mlp_layer (args.node_dim * 2) ++
          [args.nb_classes])⟩) ∧
    (args.task = "graph_level" →
      TransOutput.init mk args =
        .ok ⟨args, mk (List.replicate args.nb_mlp_layer args.node_dim ++
          [args.nb_classes])⟩) ∧
    (∀ t : TransOutput, TransOutput.init mk args = .ok t →
      ∀ (G : DGLGraph) (V : Tensor2),
        (∀ r ∈ V, r.length = args.node_dim) →
        (args.task = "node_level" →
          ∃ out, t.forward ⟨G, V⟩ = .ok (G, out) ∧
            out.length = V.length ∧
            ∀ r ∈ out, r.length = args.nb_classes) ∧
        (args.task = "link_level" →
          (∀ e ∈ G.edges, e.1 < V.length ∧ e.2 < V.length) →
          ∃ G' out, t.forward ⟨G, V⟩ = .ok (G', out) ∧
            out.length = G.edges.length ∧
            ∀ r ∈ out, r.length = args.nb_classes) ∧
        (args.task = "graph_level" →
          (∀ n ∈ G.batch_num_nodes, 0 < n) →
          G.batch_num_nodes.sum = V.length →
          ∃ G' out, t.forward ⟨G, V⟩ = .ok (G', out) ∧
            out.length = G.batch_num_nodes.length ∧
            ∀ r ∈ out, r.length = args.nb_classes)) := by
  refine ⟨fun h => by simp [TransOutput.init, h],
    fun h => by simp [TransOutput.init, h],
    fun h => by simp [TransOutput.init, h], ?_⟩
  intro t ht G V hV
  refine ⟨fun h => ?_, fun h hedges => ?_, fun h hpos hsum => ?_⟩
  · -- node_level
    simp only [TransOutput.init, h, if_pos, String.reduceEq, if_true,
      Except.ok.injEq] at ht
    subst ht
    obtain ⟨hcs, hchain⟩ :=
      hmk (List.replicate args.nb_mlp_layer args.node_dim ++ [args.nb_classes])
        (by simp)
    have hshape := MLP.apply_shape _ (List.replicate args.nb_mlp_layer args.node_dim)
      args.nb_classes hchain V
      (fun r hr => by
        rw [replicate_append_headD _ _ _ hlayer]; exact hV r hr)
    refine ⟨_, ?_, hshape.1, hshape.2⟩
    simp [TransOutput.forward, h]
  · -- link_level
    simp only [TransOutput.init, h, String.reduceEq, if_false, if_true,
      reduceIte, Except.ok.injEq] at ht
    subst ht
    obtain ⟨hcs, hchain⟩ :=
      hmk (List.replicate args.nb_mlp_layer (args.node_dim * 2) ++ [args.nb_classes])
        (by simp)
    have hrows : ∀ r ∈ G.edges.map (edgeFeat V),
        r.length = (List.replicate args.nb_mlp_layer (args.node_dim * 2) ++
          [args.nb_classes]).headD 0 := by
      intro r hr
      rw [replicate_append_headD _ _ _ hlayer]
      simp only [List.mem_map] at hr
      obtain ⟨e, he, rfl⟩ := hr
      obtain ⟨h1, h2⟩ := hedges e he
      have l1 := hV _ (getD_mem_of_lt V e.1 h1)
      have l2 := hV _ (getD_mem_of_lt V e.2 h2)
      simp only [edgeFeat, List.length_append, l1, l2]
      omega
    have hshape := MLP.apply_shape _
      (List.replicate args.nb_mlp_layer (args.node_dim * 2)) args.nb_classes
      hchain (G.edges.map (edgeFeat V)) hrows
    refine ⟨{ G with ndataV := some V, edataE := some (G.edges.map (edgeFeat V)) },
      (mk (List.replicate args.nb_mlp_layer (args.node_dim * 2) ++
        [args.nb_classes])).apply (G.edges.map (edgeFeat V)),
      ?_, ?_, hshape.2⟩
    · simp [TransOutput.forward, h]
    · rw [hshape.1, List.length_map]
  · -- graph_level
    simp only [TransOutput.init, h, String.reduceEq, if_false, if_true,
      reduceIte, Except.ok.injEq] at ht
    subst ht
    obtain ⟨hcs, hchain⟩ :=
      hmk (List.replicate args.nb_mlp_layer args.node_dim ++ [args.nb_classes])
        (by simp)
    have hrows : ∀ r ∈ (splitBatches G.batch_num_nodes V).map meanRows,
        r.length = (List.replicate args.nb_mlp_layer args.node_dim ++
          [args.nb_classes]).headD 0 := by
      intro r hr
      rw [replicate_append_headD _ _ _ hlayer]
      simp only [List.mem_map] at hr
      obtain ⟨b, hb, rfl⟩ := hr
      refine meanRows_length b args.node_dim
        (splitBatches_nonempty G.batch_num_nodes V hpos (le_of_eq hsum) b hb)
        (fun r' hr' =>
          hV r' (splitBatches_row_mem G.batch_num_nodes V b hb r' hr'))
    have hshape := MLP.apply_shape _
      (List.replicate args.nb_mlp_layer args.node_dim) args.nb_classes
      hchain ((splitBatches G.batch_num_nodes V).map meanRows) hrows
    refine ⟨{ G with ndataV := some V },
      (mk (List.replicate args.nb_mlp_layer args.node_dim ++
        [args.nb_classes])).apply ((splitBatches G.batch_num_nodes V).map meanRows),
      ?_, ?_, hshape.2⟩
    · simp [TransOutput.forward, mean_nodes, h]
    · rw [hshape.1, List.length_map, splitBatches_length]

/-- Witness for C5: node-level evaluation of a concrete head on the sample
two-node graph. -/
theorem trans_output_channels_and_output_shape_witness :
    (0 < tNode.args.nb_mlp_layer ∧ tNode.args.task = "node_level" ∧
      ∀ r ∈ Vex, r.length = tNode.args.node_dim) ∧
    ∃ out,
      TransOutput.forward ⟨tNode.args, MLP.mk0 [3, 3, 1]⟩ ⟨Gex, Vex⟩ =
        .ok (Gex, out) ∧
      out.length = Vex.length ∧
      ∀ r ∈ out, r.length = tNode.args.nb_classes := by
  refine ⟨⟨by decide, rfl, by decide⟩, ?_⟩
  exact ((trans_output_channels_and_output_shape MLP.mk0
    (fun cs hc => MLPBuilt_mk0 cs hc) tNode.args (by decide)).2.2.2
    ⟨tNode.args, MLP.mk0 [3, 3, 1]⟩ rfl Gex Vex (by decide)).1 rfl

/-- Looking up a row of in-range indices through enough tables of row width
`H` succeeds and yields one width-`H` embedding per feature. -/
theorem embedRow_shape (row : List Nat) :
    ∀ (tables : List Tensor2) (H : Nat),
      row.length ≤ tables.length →
      (∀ i, i < row.length → row.getD i 0 < (tables.getD i []).length) →
      (∀ i, i < row.length → ∀ r ∈ tables.getD i [], r.length = H) →
      ∃ es, embedRow tables row = some es ∧ es.length = row.length ∧
        ∀ e ∈ es, e.length = H := by
  induction row with
  | nil =>
    intro tables H _ _ _
    exact ⟨[], by cases tables <;> rfl, rfl, by simp⟩
  | cons j row' ih =>
    intro tables H hlen hidx hwid
    match tables with
    | [] => simp at hlen
    | tbl :: tables' =>
      have hj : j < tbl.length := hidx 0 (by simp)
      obtain ⟨es', hes', hlen', hH'⟩ := ih tables' H
        (by simpa using hlen)
        (fun i hi => hidx (i + 1) (by simpa using Nat.succ_lt_succ hi))
        (fun i hi => hwid (i + 1) (by simpa using Nat.succ_lt_succ hi))
      refine ⟨tbl[j] :: es', ?_, by simp [hlen'], ?_⟩
      · simp [embedRow, List.getElem?_eq_getElem hj, hes']
      · intro e he
        rcases List.mem_cons.mp he with rfl | he'
        · exact hwid 0 (by simp) _ (List.getElem_mem hj)
        · exact hH' e he'

/-- C8: a `FeatureConcatEncoder` built from `feature_dims` and hidden size
`H`, applied to an integer tensor of shape `(N, F)` with every feature
index inside its table, returns a tensor of shape `(N, H)`, via one
embedding table per feature and the projection `F*H -> H`. -/
theorem feature_concat_encoder_shape (enc : FeatureConcatEncoder)
    (feature_dims : List Nat) (H : Nat) (padding : Bool)
    (hb : enc.builtFrom feature_dims H padding)
    (x : List (List Nat))
    (hrow : ∀ r ∈ x, r.length = feature_dims.length)
    (hidx : ∀ r ∈ x, ∀ i, i < r.length → r.getD i 0 < feature_dims.getD i 0) :
    enc.proj.in_features = feature_dims.length * H ∧
    enc.proj.out_features = H ∧
    ∃ y, enc.forward x = some y ∧ y.length = x.length ∧
      ∀ row ∈ y, row.length = H := by
  obtain ⟨hL, htbl, hin, hout, hwf⟩ := hb
  refine ⟨hin, hout, ?_⟩
  have rowOk : ∀ r : List Nat, r.length = feature_dims.length →
      (∀ i, i < r.length → r.getD i 0 < feature_dims.getD i 0) →
      ∃ v, enc.applyRow r = some v ∧ v.length = H := by
    intro r h1 h2
    obtain ⟨es, hes, _, _⟩ := embedRow_shape r enc.embedding_list H
      (by rw [h1, hL])
      (fun i hi => by
        have hi' : i < feature_dims.length := h1 ▸ hi
        rw [(htbl i hi').1]
        exact h2 i hi)
      (fun i hi => (htbl i (h1 ▸ hi)).2.1)
    refine ⟨enc.proj.apply es.flatten, ?_, ?_⟩
    · simp [FeatureConcatEncoder.applyRow, hes]
    · rw [Linear.apply_length enc.proj hwf, hout]
  induction x with
  | nil => exact ⟨[], rfl, rfl, by simp⟩
  | cons r rest ih =>
    obtain ⟨v, hv, hvH⟩ := rowOk r (hrow r (by simp))
      (hidx r (by simp))
    obtain ⟨y, hy, hylen, hyH⟩ := ih
      (fun r' hr' => hrow r' (List.mem_cons_of_mem _ hr'))
      (fun r' hr' => hidx r' (List.mem_cons_of_mem _ hr'))
    refine ⟨v :: y, ?_, by simp [hylen], ?_⟩
    · simp [FeatureConcatEncoder.forward, hv, hy]
    · intro row hm
      rcases List.mem_cons.mp hm with rfl | hm'
      · exact hvH
      · exact hyH row hm'

/-- A sample encoder built from feature dims `[2, 3]` and hidden size 2. -/
def encEx : FeatureConcatEncoder :=
  { embedding_list := [[[1, 2], [3, 4]], [[5, 6], [7, 8], [9, 10]]],
    proj := Linear.zeros 4 2 }

/-- Witness for C8: the sample encoder on a concrete 2-row input. -/
theorem feature_concat_encoder_shape_witness :
    encEx.builtFrom [2, 3] 2 false ∧
    encEx.proj.in_features = 2 * 2 ∧ encEx.proj.out_features = 2 ∧
    ∃ y, encEx.forward [[1, 2], [0, 0]] = some y ∧ y.length = 2 ∧
      ∀ row ∈ y, row.length = 2 := by
  have h := feature_concat_encoder_shape encEx [2, 3] 2 false (by decide)
    [[1, 2], [0, 0]] (by decide) (by decide)
  exact ⟨by decide, h.1, h.2.1, h.2.2⟩

end GNASHP
